import Mathlib

/-!
Shallow embedding of the Application State Reconciliation Core:
`src/engine/pkg/utils/kube/kube.go` and `src/controller/state.go`.

Kubernetes objects are modelled structurally (group/version/kind, namespace,
name, labels, annotations); the effectful collaborators of the comparator
(settings store, repo server, live-state cache, project policy, diff engine,
health evaluator) are supplied as explicit inputs, mirroring the values their
calls produce in the Go code.  Go map iteration order is unspecified, so every
place the Go code ranges over a map takes the iteration order as an explicit
parameter.  Timestamps (`metav1.Now()`) are omitted from conditions; the claims
under study all ignore them.
-/

namespace ArgoCD

/-- Group/version/kind of an object, as returned by `obj.GroupVersionKind()`. -/
structure Gvk where
  group : String
  version : String
  kind : String
deriving DecidableEq, Repr, Inhabited

/-- A group/kind pair (`schema.GroupKind`). -/
structure GroupKind where
  group : String
  kind : String
deriving DecidableEq, Repr, Inhabited

/-- Structural model of `unstructured.Unstructured`: the metadata the
reconciliation core reads (GVK, namespace, name, labels, annotations).
The namespace field is written `ns` (`namespace` is a Lean keyword). -/
structure Unstructured where
  gvk : Gvk
  ns : String
  name : String
  labels : List (String × String)
  annotations : List (String × String)
deriving DecidableEq, Repr, Inhabited

/-- `kube.ResourceKey`: 4-tuple identity of a cluster object (kube.go:58-63). -/
structure ResourceKey where
  group : String
  kind : String
  ns : String
  name : String
deriving DecidableEq, Repr, Inhabited

/-- `ResourceKey.String()` (kube.go:65-67). -/
def ResourceKey.string (k : ResourceKey) : String :=
  k.group ++ "/" ++ k.kind ++ "/" ++ k.ns ++ "/" ++ k.name

/-- `kube.NewResourceKey` (kube.go:73-75). -/
def newResourceKey (group kind ns name : String) : ResourceKey :=
  ⟨group, kind, ns, name⟩

/-- `kube.GetResourceKey` (kube.go:77-80). -/
def getResourceKey (o : Unstructured) : ResourceKey :=
  newResourceKey o.gvk.group o.gvk.kind o.ns o.name

/-- `kube.GetAppInstanceLabel` (kube.go:124-129): the value of the given label
key, or `""` when absent. -/
def getAppInstanceLabel (o : Unstructured) (key : String) : String :=
  match o.labels.lookup key with
  | some v => v
  | none => ""

/-! ## SplitYAML (kube.go:279-307)

The input string is split on `\n---` and each part is fed to two
`yaml.Unmarshal` calls (first into a generic map, then into an `Unstructured`).
The YAML parser is external to the repository, so each part is embedded by the
outcome of those two calls. -/

/-- One document of the split input, described by the outcome of parsing it:
the map-unmarshal fails, the map is empty (blank document), the second
unmarshal into `Unstructured` fails, or an object is produced.  Failure
constructors carry the parser's error text. -/
inductive YamlPart
| badMap (e : String)
| emptyDoc
| badObj (e : String)
| good (o : Unstructured)
deriving DecidableEq, Repr

/-- Whether the part is one of the two parse-failure outcomes. -/
def YamlPart.isErr : YamlPart → Bool
| .badMap _ => true
| .badObj _ => true
| _ => false

/-- The loop of `SplitYAML`: accumulates parsed objects and the first error. -/
def splitYAMLAux : List YamlPart → List Unstructured → Option String →
    List Unstructured × Option String
| [], objs, firstErr => (objs, firstErr)
| .badMap e :: rest, objs, firstErr =>
    splitYAMLAux rest objs
      (if firstErr = none then some ("Failed to unmarshal manifest: " ++ e) else firstErr)
| .emptyDoc :: rest, objs, firstErr => splitYAMLAux rest objs firstErr
| .badObj e :: rest, objs, firstErr =>
    splitYAMLAux rest objs
      (if firstErr = none then some ("Failed to unmarshal manifest: " ++ e) else firstErr)
| .good o :: rest, objs, firstErr => splitYAMLAux rest (objs ++ [o]) firstErr

/-- `kube.SplitYAML` (kube.go:279-307) on the already-split parts: returns all
parsed objects together with the first parse error (if any). -/
def splitYAML (parts : List YamlPart) : List Unstructured × Option String :=
  splitYAMLAux parts [] none

/-! ## WatchWithRetry (kube.go:310-358)

The goroutine's interaction with `getWatch`, the upstream result channel and
the context is serialized into a script: each element describes one iteration
of the outer loop (one `execute()` call).  The function's observable behaviour
is the sequence of channel operations it performs.  A script that never makes
the loop return models a non-terminating run; the function then yields `none`
for the truncated trace. -/

/-- One outer-loop iteration of `WatchWithRetry`: either `getWatch` errors, or
a watch is opened and delivers `events` items after which either the upstream
channel closes (`closed = true`) or `ctx.Done()` fires (`closed = false`). -/
inductive WatchAttempt
| openErr
| upstream (events : Nat) (closed : Bool)
deriving DecidableEq, Repr

/-- An item sent on the output channel: a watch event or an error item. -/
inductive WatchItem
| event
| errItem
deriving DecidableEq, Repr

/-- Observable steps of the watch loop: emit an item, sleep the 1-second
backoff, or close the output channel (the deferred `close(ch)`). -/
inductive WatchStep
| emit (it : WatchItem)
| sleep
| closeChan
deriving DecidableEq, Repr

/-- The outer loop of `WatchWithRetry` (kube.go:341-356) over a script of
iteration outcomes.  `execute()` returns `(false, err)` when `getWatch` errors,
`(true, nil)` when the upstream channel closes, and `(false, nil)` when the
context is done; the loop emits the error item when `err != nil`, returns when
`retry` is false, and otherwise sleeps one second and loops. -/
def watchWithRetry : List WatchAttempt → Option (List WatchStep)
| [] => none
| .openErr :: _ =>
    some [.emit .errItem, .closeChan]
| .upstream n false :: _ =>
    some (List.replicate n (.emit .event) ++ [.closeChan])
| .upstream n true :: rest =>
    (watchWithRetry rest).map (fun t => List.replicate n (.emit .event) ++ .sleep :: t)

/-! ## RetryUntilSucceed (kube.go:369-395)

One attempt is one `action()` call; after a failed attempt the loop consults
the `ctxCompleted` flag (set asynchronously when the context is done) and
either stops or sleeps `timeout` and retries.  Each script element records the
attempt's outcome and, for failures, whether cancellation had been observed by
the time of the check. -/

/-- Outcome of one `action()` call: success, or failure together with the value
of `ctxCompleted` read right after it. -/
inductive AttemptOutcome
| ok
| fail (cancelObserved : Bool)
deriving DecidableEq, Repr

/-- Observable steps of the retry loop: an `action()` invocation or a sleep. -/
inductive RetryEvent
| attempt
| sleep
deriving DecidableEq, Repr

/-- The loop of `RetryUntilSucceed` (kube.go:380-394): always calls `action()`
first; on success returns; on failure returns if cancellation was observed,
else sleeps and retries.  `none` models a run whose script ends before the
loop does. -/
def retryUntilSucceed : List AttemptOutcome → Option (List RetryEvent)
| [] => none
| .ok :: _ => some [.attempt]
| .fail true :: _ => some [.attempt]
| .fail false :: rest =>
    (retryUntilSucceed rest).map (fun t => .attempt :: .sleep :: t)

/-- The event trace of a run with `n` failed-and-retried attempts followed by
one final attempt: attempts separated by single sleeps. -/
def retryPattern : Nat → List RetryEvent
| 0 => [.attempt]
| n + 1 => .attempt :: .sleep :: retryPattern n

/-! ## Application conditions (v1alpha1.ApplicationCondition) -/

/-- The condition types the comparator emits. -/
inductive ConditionType
| comparisonError
| sharedResourceWarning
| repeatedResourceWarning
| excludedResourceWarning
deriving DecidableEq, Repr

/-- An application condition; the `LastTransitionTime` timestamp is omitted. -/
structure ApplicationCondition where
  type : ConditionType
  message : String
deriving DecidableEq, Repr

/-! ## DeduplicateTargetObjects (state.go:167-200)

The Go code groups the (namespace-imputed) objects into
`map[ResourceKey][]*unstructured.Unstructured` and then ranges over that map.
The grouped map is modelled as an association list in key-insertion order; the
range order is an explicit `order` parameter, constrained in the theorems to a
permutation of the map's keys (Go map iteration order is unspecified). -/

/-- Namespace imputation (state.go:176-181): cluster-scoped kinds get `ns = ""`;
namespaced kinds with no namespace get the destination namespace. -/
def imputeNamespace (ns : String) (isNamespaced : GroupKind → Bool) (o : Unstructured) :
    Unstructured :=
  if ¬ isNamespaced ⟨o.gvk.group, o.gvk.kind⟩ then { o with ns := "" }
  else if o.ns = "" then { o with ns := ns } else o

/-- Association-list lookup by `ResourceKey` (propositional equality). -/
def alookup {β : Type} (k : ResourceKey) : List (ResourceKey × β) → Option β
| [] => none
| (k', v) :: rest => if k' = k then some v else alookup k rest

/-- `targetByKey[key] = append(targetByKey[key], obj)`: extend the bucket of
`k` (preserving key order), or add a new bucket at the end. -/
def insertGrouped (m : List (ResourceKey × List Unstructured)) (k : ResourceKey)
    (o : Unstructured) : List (ResourceKey × List Unstructured) :=
  match m with
  | [] => [(k, [o])]
  | (k', os) :: rest =>
      if k' = k then (k', os ++ [o]) :: rest else (k', os) :: insertGrouped rest k o

/-- The grouping loop of `DeduplicateTargetObjects` (state.go:174-184). -/
def targetByKeyAux (ns : String) (isNamespaced : GroupKind → Bool) :
    List (ResourceKey × List Unstructured) → List Unstructured →
    List (ResourceKey × List Unstructured)
| m, [] => m
| m, o :: rest =>
    let o' := imputeNamespace ns isNamespaced o
    targetByKeyAux ns isNamespaced (insertGrouped m (getResourceKey o') o') rest

/-- The `targetByKey` map after the grouping loop. -/
def targetByKey (ns : String) (isNamespaced : GroupKind → Bool) (objs : List Unstructured) :
    List (ResourceKey × List Unstructured) :=
  targetByKeyAux ns isNamespaced [] objs

/-- The `RepeatedResourceWarning` message (state.go:192). -/
def repeatedMsg (k : ResourceKey) (n : Nat) : String :=
  "Resource " ++ k.string ++ " appeared " ++ toString n ++ " times among application resources."

/-- Body of the range over `targetByKey` (state.go:187-197): for each key emit
a warning when its bucket has more than one object and keep the bucket's last
object. -/
def dedupStep (m : List (ResourceKey × List Unstructured))
    (acc : List Unstructured × List ApplicationCondition) (k : ResourceKey) :
    List Unstructured × List ApplicationCondition :=
  match alookup k m with
  | none => acc
  | some targets =>
      let conds :=
        if targets.length > 1 then
          acc.2 ++ [⟨.repeatedResourceWarning, repeatedMsg k targets.length⟩]
        else acc.2
      (acc.1 ++ [targets.getLastD default], conds)

/-- `DeduplicateTargetObjects` (state.go:167-200), with the Go map's iteration
order as the explicit `order` parameter.  The third component is the returned
`error`, which the source always sets to `nil` (state.go:199). -/
def deduplicateTargetObjects (ns : String) (objs : List Unstructured)
    (isNamespaced : GroupKind → Bool) (order : List ResourceKey) :
    List Unstructured × List ApplicationCondition × Option String :=
  let m := targetByKey ns isNamespaced objs
  let rc := order.foldl (dedupStep m) ([], [])
  (rc.1, rc.2, none)

/-! ## CompareAppState data model (state.go:44-78, 221-437)

The comparator's collaborators (settings store, repo server, live-state cache,
resources filter, project policy, diff engine, health evaluator, hook/ignore
utilities) live outside `src/`; their call results are supplied as explicit
inputs in `CompareParams`, and the utilities absent from `src/` are modelled
from the spec where noted. -/

/-- `v1alpha1.SyncStatusCode`; `empty` is the Go zero value `""` (the value a
`ResourceStatus.Status` keeps when no branch assigns it). -/
inductive SyncStatusCode
| empty
| unknown
| synced
| outOfSync
deriving DecidableEq, Repr, Inhabited

/-- `health.HealthStatusCode`. -/
inductive HealthStatusCode
| healthy
| progressing
| degraded
| suspended
| missing
| unknown
deriving DecidableEq, Repr, Inhabited

/-- Modelled from the spec: `diff.DiffResult` (engine diff package, not in
src).  Only the authoritative `modified` bit is carried (§3: "`modified` is
the authoritative 'needs apply' bit"); its Go zero value is `false`. -/
structure DiffResult where
  modified : Bool
deriving DecidableEq, Repr, Inhabited

/-- `v1alpha1.ResourceStatus` as populated at state.go:346-354. -/
structure ResourceStatus where
  group : String
  version : String
  kind : String
  ns : String
  name : String
  hook : Bool
  requiresPruning : Bool
  status : SyncStatusCode
deriving DecidableEq, Repr

/-- The Go zero value of `ResourceStatus` (what a `continue` at state.go:342
leaves in the preallocated slice). -/
def ResourceStatus.zero : ResourceStatus :=
  ⟨"", "", "", "", "", false, false, .empty⟩

/-- `managedResource` (state.go:44-54). -/
structure ManagedResource where
  target : Option Unstructured
  live : Option Unstructured
  diff : DiffResult
  group : String
  version : String
  kind : String
  ns : String
  name : String
  hook : Bool
deriving DecidableEq, Repr

/-- The Go zero value of `managedResource`. -/
def ManagedResource.zero : ManagedResource :=
  ⟨none, none, default, "", "", "", "", "", false⟩

/-- Application destination (`app.Spec.Destination`): server URL and
namespace. -/
structure Destination where
  server : String
  ns : String
deriving DecidableEq, Repr

/-- `v1alpha1.SyncStatus` with its `ComparedTo` pair; the source reference is
kept opaque as a string. -/
structure SyncStatus where
  comparedToSource : String
  comparedToDest : Destination
  status : SyncStatusCode
  revision : String
deriving DecidableEq, Repr

/-- The fields of `apiclient.ManifestResponse` the comparator reads. -/
structure ManifestInfo where
  revision : String
  sourceType : String
deriving DecidableEq, Repr

/-- `comparisonResult` (state.go:70-78); health is reduced to its aggregate
code, and the opaque `reconciliationResult`/`diffNormalizer` fields are
dropped. -/
structure ComparisonResult where
  syncStatus : SyncStatus
  healthStatus : HealthStatusCode
  resources : List ResourceStatus
  managedResources : List ManagedResource
  appSourceType : String
deriving DecidableEq, Repr

/-- Modelled from the spec: the hook / ignore / compare-options utilities
(`hookutil.IsHook`, `ignore.Ignore`, `resourceutil.HasAnnotationOption`,
engine sync package, not in src) as abstract predicates on objects (§6
"Recognized annotations"). -/
structure Externals where
  isHook : Unstructured → Bool
  ignoreObj : Unstructured → Bool
  hasIgnoreExtraneous : Unstructured → Bool

/-- Where the desired objects come from (state.go:246-261): local manifests
via `unmarshalManifests`, or the repo server via `getRepoObjs`; each carries
the outcome of that call. -/
inductive TargetSource
| localManifests (res : Except String (List Unstructured))
| repo (res : Except String (List Unstructured × ManifestInfo))

/-- All inputs of one `CompareAppState` pass: the application's identity and
the values produced by every external call the pass performs. -/
structure CompareParams where
  appName : String
  dest : Destination
  source : String
  /-- Outcome of `getComparisonSettings` (state.go:222): the app instance
  label key on success. -/
  settingsRes : Except String String
  targetSource : TargetSource
  /-- Outcome of `liveStateCache.GetClusterCache` (state.go:264): the cluster's
  `IsNamespaced` capability, or `none` on error (the stub answers `false`,
  state.go:40-42). -/
  clusterCache : Option (GroupKind → Bool)
  /-- Go map iteration order of `targetByKey` inside
  `DeduplicateTargetObjects`. -/
  dedupOrder : List ResourceKey
  /-- Outcome of `settingsMgr.GetResourcesFilter` (state.go:274):
  `IsExcludedResource(group, kind, server)`. -/
  resFilterRes : Except String (String → String → String → Bool)
  /-- Outcome of `liveStateCache.GetManagedLiveObjs` (state.go:293), as an
  association list in the cache's iteration order. -/
  liveObjsRes : Except String (List (ResourceKey × Unstructured))
  /-- `project.IsLiveResourcePermitted(obj, server)` (state.go:303). -/
  projLivePermitted : Unstructured → String → Bool
  /-- `project.IsGroupKindPermitted(gk, namespaced)` (state.go:375). -/
  projGKPermitted : GroupKind → Bool → Bool
  /-- `liveStateCache.IsNamespaced(server, gk)` (state.go:374): `none` models
  a non-nil error. -/
  liveIsNamespaced : GroupKind → Option Bool
  ext : Externals
  /-- Modelled from the spec: the per-slot outcome of `diff.DiffArray`
  (state.go:325, diff package not in src), as a per-pair function. -/
  diffPair : Option Unstructured → Option Unstructured → DiffResult
  /-- Whether `diff.DiffArray` returned an error for this pass (§7 DiffError:
  "treat all diffs as empty, set failedToLoadObjs"). -/
  diffFails : Bool
  /-- Modelled from the spec: outcome of `argohealth.SetApplicationHealth`
  (state.go:411, not in src); §7 HealthError: on error the aggregate health is
  Unknown. -/
  healthRes : Except String HealthStatusCode

/-- Target-state loading (state.go:246-261): on failure the pass proceeds with
no targets, a `ComparisonError` condition and `failedToLoadObjs = true`;
`manifestInfo` is only available from the repo path. -/
def loadTargets : TargetSource →
    List Unstructured × Option ManifestInfo × List ApplicationCondition × Bool
| .repo (.ok (objs, mi)) => (objs, some mi, [], false)
| .repo (.error e) => ([], none, [⟨.comparisonError, e⟩], true)
| .localManifests (.ok objs) => (objs, none, [], false)
| .localManifests (.error e) => ([], none, [⟨.comparisonError, e⟩], true)

/-- The `ExcludedResourceWarning` message (state.go:285). -/
def excludedMsg (o : Unstructured) : String :=
  "Resource " ++ o.gvk.group ++ "/" ++ o.gvk.kind ++ " " ++ o.name ++
    " is excluded in the settings"

/-- The resources-filter loop (state.go:278-289): walks the slice from the end
removing excluded objects, so the kept objects are a filter in input order and
the warnings are emitted in reverse input order. -/
def applyResFilter (excl : String → String → String → Bool) (server : String)
    (objs : List Unstructured) : List Unstructured × List ApplicationCondition :=
  (objs.filter (fun o => ¬ excl o.gvk.group o.gvk.kind server),
   (objs.filter (fun o => excl o.gvk.group o.gvk.kind server)).reverse.map
     (fun o => ⟨.excludedResourceWarning, excludedMsg o⟩))

/-- The shared-resource scan (state.go:308-319): for each surviving live
object whose app-instance label is non-empty and differs from the app's name,
emit a `SharedResourceWarning`. -/
def sharedWarnings (appLabelKey appName : String)
    (live : List (ResourceKey × Unstructured)) : List ApplicationCondition :=
  live.filterMap (fun kv =>
    let appInstanceName := getAppInstanceLabel kv.2 appLabelKey
    if appInstanceName ≠ "" ∧ appInstanceName ≠ appName then
      some ⟨.sharedResourceWarning,
        kv.2.gvk.kind ++ "/" ++ kv.2.name ++ " is part of a different application: " ++
          appInstanceName⟩
    else none)

/-- Modelled from the spec: `sync.Reconcile` (engine sync package, not in src),
per §4.4: each target is paired with the live object of its (namespace-imputed)
key and that key is removed from the live map; the remaining live objects
become prune slots after all target slots, in live iteration order. -/
def reconcile (ns : String) (isNamespaced : GroupKind → Bool) :
    List Unstructured → List (ResourceKey × Unstructured) →
    List (Option Unstructured × Option Unstructured)
| [], live => live.map (fun kv => (none, some kv.2))
| t :: rest, live =>
    let k := getResourceKey (imputeNamespace ns isNamespaced t)
    (some t, alookup k live) ::
      reconcile ns isNamespaced rest (live.filter (fun kv => ¬ kv.1 = k))

/-- `obj := liveObj; if obj == nil then obj = targetObj` (state.go:337-340),
on a `(target, live)` slot. -/
def objOf (slot : Option Unstructured × Option Unstructured) : Option Unstructured :=
  match slot.2 with
  | some l => some l
  | none => slot.1

/-- The per-slot diff (state.go:356 `diffResults.Diffs[i]`): the pair's diff,
or the empty diff when `DiffArray` failed (§7: treat all diffs as empty). -/
def slotDiff (diffPair : Option Unstructured → Option Unstructured → DiffResult)
    (diffFails : Bool) (slot : Option Unstructured × Option Unstructured) : DiffResult :=
  if diffFails then default else diffPair slot.1 slot.2

/-- One iteration of the comparison loop (state.go:335-395): classifies the
slot, updates the aggregate sync code, and produces the `ResourceStatus` and
`managedResource` entries (the Go zero values when both objects are nil). -/
def processSlot (ext : Externals) (projGKPermitted : GroupKind → Bool → Bool)
    (liveIsNamespaced : GroupKind → Option Bool) (failedToLoadObjs : Bool)
    (slot : Option Unstructured × Option Unstructured) (diffResult : DiffResult)
    (syncCode : SyncStatusCode) :
    SyncStatusCode × ResourceStatus × ManagedResource :=
  match objOf slot with
  | none => (syncCode, ResourceStatus.zero, ManagedResource.zero)
  | some obj =>
    let targetObj := slot.1
    let liveObj := slot.2
    let gvk := obj.gvk
    let hook := ext.isHook obj
    let requiresPruning := targetObj.isNone && liveObj.isSome
    -- (per-resource status from the branch, aggregate sync code afterwards)
    let branch : SyncStatusCode × SyncStatusCode :=
      if hook || ext.ignoreObj obj then (.empty, syncCode)
      else if diffResult.modified || targetObj.isNone || liveObj.isNone then
        let needsPruning := targetObj.isNone && liveObj.isSome
        (.outOfSync,
          if !(needsPruning && ext.hasIgnoreExtraneous obj) then .outOfSync else syncCode)
      else (.synced, syncCode)
    -- state.go:374-377: IsNamespaced error makes the second argument false
    let isNamespacedArg := (liveIsNamespaced ⟨gvk.group, gvk.kind⟩).getD false
    let status2 :=
      if !projGKPermitted ⟨gvk.group, gvk.kind⟩ isNamespacedArg then .unknown else branch.1
    let status3 := if failedToLoadObjs then SyncStatusCode.unknown else status2
    (branch.2,
     { group := gvk.group, version := gvk.version, kind := gvk.kind, ns := obj.ns,
       name := obj.name, hook := hook, requiresPruning := requiresPruning,
       status := status3 },
     { target := targetObj, live := liveObj, diff := diffResult, group := gvk.group,
       version := gvk.version, kind := gvk.kind, ns := obj.ns, name := obj.name,
       hook := hook })

/-- The comparison loop (state.go:332-395) over the slots paired with their
diffs: threads the aggregate sync code and accumulates both result arrays. -/
def processSlots (ext : Externals) (projGKPermitted : GroupKind → Bool → Bool)
    (liveIsNamespaced : GroupKind → Option Bool) (failedToLoadObjs : Bool)
    (slotDiffs : List ((Option Unstructured × Option Unstructured) × DiffResult)) :
    SyncStatusCode × List ResourceStatus × List ManagedResource :=
  slotDiffs.foldl
    (fun acc sd =>
      let r := processSlot ext projGKPermitted liveIsNamespaced failedToLoadObjs
        sd.1 sd.2 acc.1
      (r.1, acc.2.1 ++ [r.2.1], acc.2.2 ++ [r.2.2]))
    (.synced, [], [])

/-- Stage: target-state loading of the pass (state.go:242-261). -/
def passLoad (p : CompareParams) :
    List Unstructured × Option ManifestInfo × List ApplicationCondition × Bool :=
  loadTargets p.targetSource

/-- Stage: the `infoProvider` of the pass (state.go:263-267): the cluster
cache's capability or the always-cluster-scoped stub. -/
def infoProviderOf (p : CompareParams) : GroupKind → Bool :=
  p.clusterCache.getD (fun _ => false)

/-- Stage: the deduplication call of the pass (state.go:268). -/
def dedupOf (p : CompareParams) :
    List Unstructured × List ApplicationCondition × Option String :=
  deduplicateTargetObjects p.dest.ns (passLoad p).1 (infoProviderOf p) p.dedupOrder

/-- Stage: the resources-filter step (state.go:274-290): on settings error the
targets are kept and a `ComparisonError` is emitted, else excluded targets are
dropped with `ExcludedResourceWarning`s. -/
def filterStage (p : CompareParams) : List Unstructured × List ApplicationCondition :=
  match p.resFilterRes with
  | .error e => ((dedupOf p).1, [⟨.comparisonError, e⟩])
  | .ok excl => applyResFilter excl p.dest.server (dedupOf p).1

/-- Stage: the live-state fetch (state.go:293-298): on failure an empty map, a
`ComparisonError` condition and `failedToLoadObjs`. -/
def liveStage (p : CompareParams) :
    List (ResourceKey × Unstructured) × List ApplicationCondition × Bool :=
  match p.liveObjsRes with
  | .error e => ([], [⟨.comparisonError, e⟩], true)
  | .ok l => (l, [], false)

/-- Stage: live objects after dropping those the project does not permit
(state.go:302-306). -/
def liveFiltered (p : CompareParams) : List (ResourceKey × Unstructured) :=
  (liveStage p).1.filter (fun kv => p.projLivePermitted kv.2 p.dest.server)

/-- Stage: the reconciler call (state.go:321). -/
def slotsOf (p : CompareParams) : List (Option Unstructured × Option Unstructured) :=
  reconcile p.dest.ns (infoProviderOf p) (filterStage p).1 (liveFiltered p)

/-- Stage: each slot paired with its diff (state.go:325-330, 356). -/
def slotDiffsOf (p : CompareParams) :
    List ((Option Unstructured × Option Unstructured) × DiffResult) :=
  (slotsOf p).map (fun s => (s, slotDiff p.diffPair p.diffFails s))

/-- Stage: the pass's `failedToLoadObjs` flag (state.go:236, 251, 258, 297,
328): target load failed, live fetch failed, or the diff call failed. -/
def failedOf (p : CompareParams) : Bool :=
  (passLoad p).2.2.2 || (liveStage p).2.2 || p.diffFails

/-- Stage: the comparison loop of the pass (state.go:332-395). -/
def loopOf (p : CompareParams) :
    SyncStatusCode × List ResourceStatus × List ManagedResource :=
  processSlots p.ext p.projGKPermitted p.liveIsNamespaced (failedOf p) (slotDiffsOf p)

/-- Stage: the aggregate sync code after the loop (state.go:397-399). -/
def syncCodeOf (p : CompareParams) : SyncStatusCode :=
  if failedOf p then .unknown else (loopOf p).1

/-- Stage: the conditions accumulated by the pass, in emission order
(state.go:250, 257, 270, 272, 276, 283, 296, 312, 329, 416). -/
def condsOf (p : CompareParams) (appLabelKey : String) : List ApplicationCondition :=
  (passLoad p).2.2.1 ++
  (match (dedupOf p).2.2 with
   | some e => [(⟨.comparisonError, e⟩ : ApplicationCondition)]
   | none => []) ++
  (dedupOf p).2.1 ++
  (filterStage p).2 ++
  (liveStage p).2.1 ++
  sharedWarnings appLabelKey p.appName (liveFiltered p) ++
  (if p.diffFails then
    [(⟨.comparisonError, "error diffing objects"⟩ : ApplicationCondition)]
   else []) ++
  (match p.healthRes with
   | .ok _ => []
   | .error e => [(⟨.comparisonError, e⟩ : ApplicationCondition)])

/-- Stage: the aggregate health of the pass (state.go:411-417; §7 HealthError:
Unknown on evaluator error). -/
def healthOf (p : CompareParams) : HealthStatusCode :=
  match p.healthRes with
  | .ok h => h
  | .error _ => .unknown

/-- Stage: the revision recorded in the sync status (state.go:407-409). -/
def revisionOf (p : CompareParams) : String :=
  match (passLoad p).2.1 with
  | some mi => mi.revision
  | none => ""

/-- Stage: the recorded application source type (state.go:427-429). -/
def sourceTypeOf (p : CompareParams) : String :=
  match (passLoad p).2.1 with
  | some mi => mi.sourceType
  | none => ""

/-- `CompareAppState` (state.go:221-437) as a function of the pass inputs.
Returns the `comparisonResult` together with the conditions handed to
`app.Status.SetConditions` (state.go:430). -/
def compareAppState (p : CompareParams) : ComparisonResult × List ApplicationCondition :=
  match p.settingsRes with
  | .error _ =>
      -- state.go:225-233: unknown comparison result when settings cannot load
      ({ syncStatus := { comparedToSource := p.source, comparedToDest := p.dest,
                         status := .unknown, revision := "" },
         healthStatus := .unknown, resources := [], managedResources := [],
         appSourceType := "" }, [])
  | .ok appLabelKey =>
      ({ syncStatus := { comparedToSource := p.source, comparedToDest := p.dest,
                         status := syncCodeOf p, revision := revisionOf p },
         healthStatus := healthOf p, resources := (loopOf p).2.1,
         managedResources := (loopOf p).2.2,
         appSourceType := sourceTypeOf p },
       condsOf p appLabelKey)

/-! ## Helper definitions for the statements and concrete inputs -/

/-- The object a successfully parsed part contributes. -/
def YamlPart.goodObj : YamlPart → Option Unstructured
| .good o => some o
| _ => none

/-- The first parse-failure message of a part list, if any. -/
def firstErrOf : List YamlPart → Option String
| [] => none
| .badMap e :: _ => some ("Failed to unmarshal manifest: " ++ e)
| .badObj e :: _ => some ("Failed to unmarshal manifest: " ++ e)
| .emptyDoc :: rest => firstErrOf rest
| .good _ :: rest => firstErrOf rest

/-- A concrete namespaced object (a ConfigMap named `a`). -/
def objA : Unstructured :=
  { gvk := ⟨"", "v1", "ConfigMap"⟩, ns := "n", name := "a", labels := [], annotations := [] }

/-- A concrete namespaced object (a Secret named `b`). -/
def objB : Unstructured :=
  { gvk := ⟨"", "v1", "Secret"⟩, ns := "n", name := "b", labels := [], annotations := [] }

/-- A second ConfigMap manifest for the key of `objA` (duplicate key). -/
def objA2 : Unstructured :=
  { gvk := ⟨"", "v1", "ConfigMap"⟩, ns := "n", name := "a",
    labels := [("variant", "second")], annotations := [] }

/-- External predicates that classify nothing as hook/ignored/IgnoreExtraneous. -/
def extNone : Externals := ⟨fun _ => false, fun _ => false, fun _ => false⟩

/-- Baseline concrete pass inputs: settings load, two distinct targets from
local manifests, empty live state, nothing excluded, everything permitted,
diffs unmodified, healthy. -/
def baseParams : CompareParams :=
  { appName := "app", dest := ⟨"https://cluster", "n"⟩, source := "src",
    settingsRes := .ok "app.kubernetes.io/instance",
    targetSource := .localManifests (.ok [objA, objB]),
    clusterCache := some (fun _ => true),
    dedupOrder := [getResourceKey objA, getResourceKey objB],
    resFilterRes := .ok (fun _ _ _ => false),
    liveObjsRes := .ok [],
    projLivePermitted := fun _ _ => true,
    projGKPermitted := fun _ _ => true,
    liveIsNamespaced := fun _ => some true,
    ext := extNone,
    diffPair := fun _ _ => ⟨false⟩,
    diffFails := false,
    healthRes := .ok .healthy }

/-- The baseline inputs with the settings load failing. -/
def paramsSettingsErr : CompareParams :=
  { baseParams with settingsRes := .error "settings unavailable" }

/-- The baseline inputs with the live-state fetch failing (and a live-less
prune-free pass otherwise). -/
def paramsLiveErr : CompareParams :=
  { baseParams with liveObjsRes := .error "live state unavailable" }

/-- What the range over `targetByKey` keeps for key `k`: the last object of
its bucket (none when `k` is not a key of the map). -/
def pickOf (m : List (ResourceKey × List Unstructured)) (k : ResourceKey) :
    Option Unstructured :=
  (alookup k m).map (fun ts => ts.getLastD default)

/-- The condition the range over `targetByKey` emits for key `k`, if any. -/
def condOf (m : List (ResourceKey × List Unstructured)) (k : ResourceKey) :
    Option ApplicationCondition :=
  (alookup k m).bind (fun ts =>
    if ts.length > 1 then some ⟨.repeatedResourceWarning, repeatedMsg k ts.length⟩
    else none)

/-- Combine an existing bucket with the further objects grouped under the same
key. -/
def bucketJoin : Option (List Unstructured) → List Unstructured →
    Option (List Unstructured)
| some os, f => some (os ++ f)
| none, [] => none
| none, o :: f => some (o :: f)

/-- Whether a slot downgrades the aggregate sync code to OutOfSync
(state.go:357-369): it has an object that is neither hook nor ignored, the
OutOfSync branch fires, and it is not an IgnoreExtraneous prune candidate. -/
def slotTrigger (ext : Externals)
    (sd : (Option Unstructured × Option Unstructured) × DiffResult) : Bool :=
  match objOf sd.1 with
  | none => false
  | some obj =>
      !(ext.isHook obj || ext.ignoreObj obj) &&
      (sd.2.modified || sd.1.1.isNone || sd.1.2.isNone) &&
      !((sd.1.1.isNone && sd.1.2.isSome) && ext.hasIgnoreExtraneous obj)

/-- External predicates that classify exactly the objects named `b` as hooks
(and nothing as ignored or IgnoreExtraneous). -/
def extHookNamedB : Externals :=
  ⟨fun o => o.name == "b", fun _ => false, fun _ => false⟩

-- ### end of definitions (theorems follow)

/-! ## Association-list and grouping lemmas -/

/-- The last element with a default is a member of any non-empty list. -/
theorem getLastD_mem {α : Type} : ∀ (l : List α) (d : α), l ≠ [] → l.getLastD d ∈ l := by
  intro l
  induction l with
  | nil => intro d h; exact absurd rfl h
  | cons x xs ih =>
    intro d _
    rw [List.getLastD_cons]
    cases xs with
    | nil => simp [List.getLastD]
    | cons y ys => exact List.mem_cons_of_mem x (ih x (by simp))

/-- Looking a key up after `insertGrouped`: the bucket of the inserted key
grows by the object, other buckets are unchanged. -/
theorem alookup_insertGrouped (m : List (ResourceKey × List Unstructured))
    (k' : ResourceKey) (o : Unstructured) (k : ResourceKey) :
    alookup k (insertGrouped m k' o) =
      if k = k' then some ((alookup k m).getD [] ++ [o]) else alookup k m := by
  induction m with
  | nil =>
    by_cases h : k = k'
    · subst h; simp [insertGrouped, alookup]
    · have h' : k' ≠ k := Ne.symm h
      simp [insertGrouped, alookup, h, h']
  | cons kv rest ih =>
    obtain ⟨k₀, os₀⟩ := kv
    by_cases h1 : k₀ = k'
    · subst h1
      by_cases h2 : k₀ = k
      · subst h2; simp [insertGrouped, alookup]
      · have h2' : k ≠ k₀ := Ne.symm h2
        simp [insertGrouped, alookup, h2, h2']
    · by_cases h2 : k₀ = k
      · subst h2
        have h1' : ¬ k₀ = k' := h1
        simp [insertGrouped, alookup, h1']
      · simp [insertGrouped, alookup, h1, h2, ih]

/-- `bucketJoin` with no further objects is the identity. -/
theorem bucketJoin_nil (x : Option (List Unstructured)) : bucketJoin x [] = x := by
  cases x <;> simp [bucketJoin]

/-- Peeling one object off the tail objects of `bucketJoin`. -/
theorem bucketJoin_cons (x : Option (List Unstructured)) (o : Unstructured)
    (f : List Unstructured) :
    bucketJoin x (o :: f) = bucketJoin (some (x.getD [] ++ [o])) f := by
  cases x <;> simp [bucketJoin]

/-- The grouping loop, characterized: the bucket of `k` is the existing bucket
extended by the imputed inputs whose key is `k`, in input order. -/
theorem targetByKeyAux_alookup (ns : String) (isN : GroupKind → Bool) :
    ∀ (objs : List Unstructured) (m : List (ResourceKey × List Unstructured))
      (k : ResourceKey),
      alookup k (targetByKeyAux ns isN m objs) =
        bucketJoin (alookup k m)
          ((objs.map (imputeNamespace ns isN)).filter
            (fun o => getResourceKey o = k)) := by
  intro objs
  induction objs with
  | nil => intro m k; simp [targetByKeyAux, bucketJoin_nil]
  | cons o rest ih =>
    intro m k
    have step : targetByKeyAux ns isN m (o :: rest) =
        targetByKeyAux ns isN
          (insertGrouped m (getResourceKey (imputeNamespace ns isN o))
            (imputeNamespace ns isN o)) rest := rfl
    by_cases h : getResourceKey (imputeNamespace ns isN o) = k
    · rw [step, ih, alookup_insertGrouped, if_pos h.symm]
      have hf : (List.map (imputeNamespace ns isN) (o :: rest)).filter
          (fun x => getResourceKey x = k) =
          imputeNamespace ns isN o ::
            (List.map (imputeNamespace ns isN) rest).filter
              (fun x => getResourceKey x = k) := by
        simp [h]
      rw [hf, bucketJoin_cons]
    · rw [step, ih, alookup_insertGrouped, if_neg (Ne.symm h)]
      simp [h]

/-- The bucket of `k` in `targetByKey` is exactly the imputed inputs keyed
`k`. -/
theorem targetByKey_alookup (ns : String) (isN : GroupKind → Bool)
    (objs : List Unstructured) (k : ResourceKey) :
    alookup k (targetByKey ns isN objs) =
      bucketJoin none
        ((objs.map (imputeNamespace ns isN)).filter (fun o => getResourceKey o = k)) := by
  rw [targetByKey, targetByKeyAux_alookup]
  rfl

/-- A bucket present in `targetByKey` is the non-empty list of imputed inputs
keyed by its key. -/
theorem targetByKey_bucket (ns : String) (isN : GroupKind → Bool)
    (objs : List Unstructured) (k : ResourceKey) (ts : List Unstructured)
    (h : alookup k (targetByKey ns isN objs) = some ts) :
    ts = (objs.map (imputeNamespace ns isN)).filter (fun o => getResourceKey o = k) ∧
      ts ≠ [] := by
  rw [targetByKey_alookup] at h
  rcases hf : (objs.map (imputeNamespace ns isN)).filter
      (fun o => getResourceKey o = k) with _ | ⟨o, f⟩
  · rw [hf] at h; exact absurd h (by simp [bucketJoin])
  · rw [hf] at h
    simp only [bucketJoin, Option.some.injEq] at h
    exact ⟨h.symm, by simp [← h]⟩

/-- Every member of the bucket of `k` has resource key `k`. -/
theorem bucket_key (ns : String) (isN : GroupKind → Bool) (objs : List Unstructured)
    (k : ResourceKey) (ts : List Unstructured)
    (h : alookup k (targetByKey ns isN objs) = some ts) :
    ∀ o ∈ ts, getResourceKey o = k := by
  intro o ho
  have hts := (targetByKey_bucket ns isN objs k ts h).1
  rw [hts] at ho
  exact of_decide_eq_true (List.mem_filter.mp ho).2

/-- A key is absent from an association list exactly when `alookup` misses. -/
theorem alookup_eq_none {β : Type} (m : List (ResourceKey × β)) (k : ResourceKey) :
    alookup k m = none ↔ k ∉ m.map Prod.fst := by
  induction m with
  | nil => simp [alookup]
  | cons kv rest ih =>
    obtain ⟨k₀, v₀⟩ := kv
    by_cases h : k₀ = k
    · subst h; simp [alookup]
    · have h' : ¬ k = k₀ := fun hh => h hh.symm
      simp [alookup, h, h', ih]

/-- Keys after `insertGrouped`: unchanged when the key is present, else the
new key is appended. -/
theorem insertGrouped_keys (m : List (ResourceKey × List Unstructured))
    (k : ResourceKey) (o : Unstructured) :
    (insertGrouped m k o).map Prod.fst =
      if (alookup k m).isSome then m.map Prod.fst else m.map Prod.fst ++ [k] := by
  induction m with
  | nil => simp [insertGrouped, alookup]
  | cons kv rest ih =>
    obtain ⟨k₀, os₀⟩ := kv
    by_cases h : k₀ = k
    · subst h; simp [insertGrouped, alookup]
    · simp [insertGrouped, alookup, h, ih]
      by_cases h2 : (alookup k rest).isSome <;> simp [h2]

/-- The grouping loop preserves key distinctness. -/
theorem targetByKeyAux_keys_nodup (ns : String) (isN : GroupKind → Bool) :
    ∀ (objs : List Unstructured) (m : List (ResourceKey × List Unstructured)),
      (m.map Prod.fst).Nodup → ((targetByKeyAux ns isN m objs).map Prod.fst).Nodup := by
  intro objs
  induction objs with
  | nil => intro m h; exact h
  | cons o rest ih =>
    intro m h
    refine ih _ ?_
    rw [insertGrouped_keys]
    by_cases hs : (alookup (getResourceKey (imputeNamespace ns isN o)) m).isSome
    · simpa [hs] using h
    · have hnotin : getResourceKey (imputeNamespace ns isN o) ∉ m.map Prod.fst :=
        (alookup_eq_none m _).mp (by
          rcases ha : alookup (getResourceKey (imputeNamespace ns isN o)) m with _ | v
          · rfl
          · exact absurd (by simp [ha]) hs)
      simp [hs, List.nodup_append, h, hnotin]

/-- The keys of `targetByKey` are pairwise distinct. -/
theorem targetByKey_keys_nodup (ns : String) (isN : GroupKind → Bool)
    (objs : List Unstructured) : ((targetByKey ns isN objs).map Prod.fst).Nodup :=
  targetByKeyAux_keys_nodup ns isN objs [] (by simp)

/-! ## DeduplicateTargetObjects characterization -/

/-- The range over `targetByKey`, characterized: kept objects and emitted
warnings are `filterMap`s of the iteration order. -/
theorem dedup_foldl (m : List (ResourceKey × List Unstructured)) :
    ∀ (order : List ResourceKey) (a : List Unstructured)
      (c : List ApplicationCondition),
      order.foldl (dedupStep m) (a, c) =
        (a ++ order.filterMap (pickOf m), c ++ order.filterMap (condOf m)) := by
  intro order
  induction order with
  | nil => intro a c; simp
  | cons k rest ih =>
    intro a c
    simp only [List.foldl_cons, List.filterMap_cons]
    rcases h : alookup k m with _ | ts
    · simp [dedupStep, h, pickOf, condOf, ih]
    · by_cases hlen : ts.length > 1
      · simp [dedupStep, h, pickOf, condOf, hlen, ih]
      · simp [dedupStep, h, pickOf, condOf, hlen, ih]

/-- The kept objects of `DeduplicateTargetObjects` as a `filterMap` of the
iteration order. -/
theorem dedup_res_eq (ns : String) (objs : List Unstructured)
    (isN : GroupKind → Bool) (order : List ResourceKey) :
    (deduplicateTargetObjects ns objs isN order).1 =
      order.filterMap (pickOf (targetByKey ns isN objs)) := by
  simp [deduplicateTargetObjects, dedup_foldl]

/-- The emitted conditions of `DeduplicateTargetObjects` as a `filterMap` of
the iteration order. -/
theorem dedup_conds_eq (ns : String) (objs : List Unstructured)
    (isN : GroupKind → Bool) (order : List ResourceKey) :
    (deduplicateTargetObjects ns objs isN order).2.1 =
      order.filterMap (condOf (targetByKey ns isN objs)) := by
  simp [deduplicateTargetObjects, dedup_foldl]

/-- The kept object of a present bucket carries the bucket's key. -/
theorem pick_key (ns : String) (isN : GroupKind → Bool) (objs : List Unstructured)
    (k : ResourceKey) (ts : List Unstructured)
    (h : alookup k (targetByKey ns isN objs) = some ts) :
    getResourceKey (ts.getLastD default) = k :=
  bucket_key ns isN objs k ts h _
    (getLastD_mem ts default (targetByKey_bucket ns isN objs k ts h).2)

/-- Mapping the kept objects back to their keys recovers the iteration order,
for any order made of keys of the map. -/
theorem filterMap_pick_map_key (ns : String) (isN : GroupKind → Bool)
    (objs : List Unstructured) :
    ∀ (order : List ResourceKey),
      (∀ k ∈ order, k ∈ (targetByKey ns isN objs).map Prod.fst) →
      (order.filterMap (pickOf (targetByKey ns isN objs))).map getResourceKey = order := by
  intro order
  induction order with
  | nil => intro _; simp
  | cons k rest ih =>
    intro h
    have hk : k ∈ (targetByKey ns isN objs).map Prod.fst :=
      h k (List.mem_cons_self k rest)
    rcases ha : alookup k (targetByKey ns isN objs) with _ | ts
    · exact absurd hk ((alookup_eq_none _ k).mp ha)
    · have hpick : pickOf (targetByKey ns isN objs) k = some (ts.getLastD default) := by
        simp [pickOf, ha]
      simp only [List.filterMap_cons, hpick, List.map_cons]
      rw [pick_key ns isN objs k ts ha,
        ih (fun k' hk' => h k' (List.mem_cons_of_mem k hk'))]

/-! ## C4: DeduplicateTargetObjects keeps one last occurrence per key -/

/-- Claim C4: for any iteration order of the `targetByKey` map,
`DeduplicateTargetObjects` returns exactly one object per `ResourceKey` (the
result's keys are the distinct keys of the input, in iteration order), each
kept object is the last occurrence of its key in input order, and the
`RepeatedResourceWarning` emitted for a key held by more than one object
carries that key's input multiplicity. -/
theorem deduplicateTargetObjects_correct (ns : String) (objs : List Unstructured)
    (isN : GroupKind → Bool) (order : List ResourceKey)
    (hperm : List.Perm order ((targetByKey ns isN objs).map Prod.fst)) :
    ((deduplicateTargetObjects ns objs isN order).1.map getResourceKey = order) ∧
    ((deduplicateTargetObjects ns objs isN order).1.map getResourceKey).Nodup ∧
    (∀ o ∈ (deduplicateTargetObjects ns objs isN order).1,
      o = ((objs.map (imputeNamespace ns isN)).filter
            (fun x => getResourceKey x = getResourceKey o)).getLastD default) ∧
    ((deduplicateTargetObjects ns objs isN order).2.1 =
      order.filterMap (fun k =>
        if 1 < (objs.map (imputeNamespace ns isN)).countP
            (fun x => getResourceKey x = k) then
          some ⟨.repeatedResourceWarning,
            repeatedMsg k ((objs.map (imputeNamespace ns isN)).countP
              (fun x => getResourceKey x = k))⟩
        else none)) := by
  have hsub : ∀ k ∈ order, k ∈ (targetByKey ns isN objs).map Prod.fst :=
    fun k hk => hperm.subset hk
  have h1 : (deduplicateTargetObjects ns objs isN order).1.map getResourceKey = order := by
    rw [dedup_res_eq]
    exact filterMap_pick_map_key ns isN objs order hsub
  refine ⟨h1, ?_, ?_, ?_⟩
  · rw [h1]
    exact hperm.nodup_iff.mpr (targetByKey_keys_nodup ns isN objs)
  · intro o ho
    rw [dedup_res_eq] at ho
    rcases List.mem_filterMap.mp ho with ⟨k, _, hpk⟩
    rcases ha : alookup k (targetByKey ns isN objs) with _ | ts
    · simp [pickOf, ha] at hpk
    · have hpk' : ts.getLastD default = o := by
        simpa [pickOf, ha] using hpk
      obtain ⟨hts, hne⟩ := targetByKey_bucket ns isN objs k ts ha
      have hkey : getResourceKey o = k := by
        rw [← hpk']
        exact bucket_key ns isN objs k ts ha _ (getLastD_mem ts default hne)
      rw [hkey, ← hts, ← hpk']
  · rw [dedup_conds_eq]
    apply List.filterMap_congr
    intro k hk
    rcases ha : alookup k (targetByKey ns isN objs) with _ | ts
    · exact absurd (hsub k hk) ((alookup_eq_none _ k).mp ha)
    · obtain ⟨hts, _⟩ := targetByKey_bucket ns isN objs k ts ha
      have hlen : ts.length = (objs.map (imputeNamespace ns isN)).countP
          (fun x => getResourceKey x = k) := by
        rw [hts, List.countP_eq_length_filter]
      simp only [condOf, ha, Option.some_bind]
      rw [hlen]

/-- Witness for C4 at concrete inputs: three objects of which two share a
key, iterated in the map's own key order. -/
theorem deduplicateTargetObjects_correct_witness :
    ((deduplicateTargetObjects "n" [objA, objA2, objB] (fun _ => true)
        ((targetByKey "n" (fun _ => true) [objA, objA2, objB]).map Prod.fst)).1.map
          getResourceKey =
      (targetByKey "n" (fun _ => true) [objA, objA2, objB]).map Prod.fst) ∧
    (((deduplicateTargetObjects "n" [objA, objA2, objB] (fun _ => true)
        ((targetByKey "n" (fun _ => true) [objA, objA2, objB]).map Prod.fst)).1.map
          getResourceKey).Nodup) ∧
    (∀ o ∈ (deduplicateTargetObjects "n" [objA, objA2, objB] (fun _ => true)
        ((targetByKey "n" (fun _ => true) [objA, objA2, objB]).map Prod.fst)).1,
      o = (([objA, objA2, objB].map (imputeNamespace "n" (fun _ => true))).filter
            (fun x => getResourceKey x = getResourceKey o)).getLastD default) ∧
    ((deduplicateTargetObjects "n" [objA, objA2, objB] (fun _ => true)
        ((targetByKey "n" (fun _ => true) [objA, objA2, objB]).map Prod.fst)).2.1 =
      ((targetByKey "n" (fun _ => true) [objA, objA2, objB]).map Prod.fst).filterMap
        (fun k =>
          if 1 < ([objA, objA2, objB].map (imputeNamespace "n" (fun _ => true))).countP
              (fun x => getResourceKey x = k) then
            some ⟨.repeatedResourceWarning,
              repeatedMsg k (([objA, objA2, objB].map
                (imputeNamespace "n" (fun _ => true))).countP
                  (fun x => getResourceKey x = k))⟩
          else none)) :=
  deduplicateTargetObjects_correct "n" [objA, objA2, objB] (fun _ => true)
    ((targetByKey "n" (fun _ => true) [objA, objA2, objB]).map Prod.fst)
    (List.Perm.refl _)

/-! ## C1: WatchWithRetry behaviour on a getWatch error -/

/-- Claim C1 counterexample: with a script whose first `getWatch` call errors
and whose second iteration would deliver one event and then close, the loop
emits the error item and closes the channel: the produced trace contains no
sleep and no event from any retried watch, refuting "emit, sleep 1 s, retry". -/
theorem watchWithRetry_claim_cex :
    watchWithRetry [.openErr, .upstream 1 true] = some [.emit .errItem, .closeChan] ∧
    ((watchWithRetry [.openErr, .upstream 1 true]).getD []).count .sleep = 0 ∧
    ((watchWithRetry [.openErr, .upstream 1 true]).getD []).count (.emit .event) = 0 := by
  refine ⟨rfl, rfl, rfl⟩

/-- Claim C1 (amended): when `getWatch` errors, `WatchWithRetry` emits an
Error item and then returns, closing its output channel, without sleeping and
without calling `getWatch` again; the sleep-one-second-and-reopen behaviour
applies only after an upstream channel close. -/
theorem watchWithRetry_openErr_terminates :
    (∀ rest : List WatchAttempt,
      watchWithRetry (.openErr :: rest) = some [.emit .errItem, .closeChan]) ∧
    (∀ (n : Nat) (rest : List WatchAttempt),
      watchWithRetry (.upstream n true :: rest) =
        (watchWithRetry rest).map
          (fun t => List.replicate n (.emit .event) ++ .sleep :: t)) :=
  ⟨fun _ => rfl, fun _ _ => rfl⟩

/-! ## C2: SplitYAML error semantics -/

/-- The accumulator-passing loop of `SplitYAML`, characterized: it appends the
successfully parsed objects and keeps the first error. -/
theorem splitYAMLAux_spec (parts : List YamlPart) :
    ∀ (objs : List Unstructured) (fe : Option String),
      splitYAMLAux parts objs fe =
        (objs ++ parts.filterMap YamlPart.goodObj,
         match fe with | some e => some e | none => firstErrOf parts) := by
  induction parts with
  | nil => intro objs fe; cases fe <;> simp [splitYAMLAux, firstErrOf]
  | cons p rest ih =>
    intro objs fe
    cases p with
    | badMap e => cases fe <;> simp [splitYAMLAux, ih, YamlPart.goodObj, firstErrOf]
    | emptyDoc => cases fe <;> simp [splitYAMLAux, ih, YamlPart.goodObj, firstErrOf]
    | badObj e => cases fe <;> simp [splitYAMLAux, ih, YamlPart.goodObj, firstErrOf]
    | good o => cases fe <;> simp [splitYAMLAux, ih, YamlPart.goodObj, firstErrOf]

/-- `firstErrOf` is `none` exactly when no part is a parse failure. -/
theorem firstErrOf_eq_none (parts : List YamlPart) :
    firstErrOf parts = none ↔ ∀ p ∈ parts, p.isErr = false := by
  induction parts with
  | nil => simp [firstErrOf]
  | cons p rest ih =>
    cases p <;> simp [firstErrOf, YamlPart.isErr, ih]

/-- Claim C2 counterexample: an input whose first document fails to parse and
whose second parses returns the parsed object together with a non-nil error,
so a non-nil error does not imply that every document failed. -/
theorem splitYAML_claim_cex :
    (splitYAML [.badMap "bad", .good objA]).2 ≠ none ∧
    (splitYAML [.badMap "bad", .good objA]).1 = [objA] := by
  refine ⟨?_, rfl⟩
  intro h
  simp [splitYAML, splitYAMLAux] at h

/-- Claim C2 (amended): `SplitYAML` returns a non-nil error exactly when at
least one document failed to parse (the first such error), and it always
returns every successfully parsed object regardless of other documents'
failures. -/
theorem splitYAML_partial_error (parts : List YamlPart) :
    (splitYAML parts).1 = parts.filterMap YamlPart.goodObj ∧
    ((splitYAML parts).2 = none ↔ ∀ p ∈ parts, p.isErr = false) := by
  have h := splitYAMLAux_spec parts [] none
  rw [splitYAML, h]
  exact ⟨rfl, firstErrOf_eq_none parts⟩

/-! ## C9: RetryUntilSucceed contract -/

/-- Claim C9: with `n` failed attempts before cancellation is first observed
(or success), `RetryUntilSucceed` performs exactly `n + 1` `action()` calls
separated by single sleeps and then returns: at least one attempt happens even
when the context is already cancelled before the first check (`n = 0`,
`x = .fail true`), a sleep occurs between consecutive failed attempts, and no
attempt is made after cancellation is observed (the trace is independent of
the script tail).  The Go function returns no error value. -/
theorem retryUntilSucceed_contract (n : Nat) (x : AttemptOutcome)
    (rest : List AttemptOutcome) (hx : x = .ok ∨ x = .fail true) :
    retryUntilSucceed (List.replicate n (.fail false) ++ x :: rest) =
      some (retryPattern n) ∧
    (retryPattern n).head? = some .attempt ∧
    (retryPattern n).count .attempt = n + 1 ∧
    (retryPattern n).count .sleep = n := by
  induction n with
  | zero =>
    rcases hx with h | h <;> subst h <;>
      simp [retryUntilSucceed, retryPattern]
  | succ m ih =>
    obtain ⟨h1, _, h3, h4⟩ := ih
    refine ⟨?_, rfl, ?_, ?_⟩
    · simp only [List.replicate_succ, List.cons_append, retryUntilSucceed,
        List.append_eq]
      rw [h1]
      rfl
    · simp [retryPattern, h3, List.count_cons]
    · simp [retryPattern, h4, List.count_cons]

/-- Witness for C9 at a concrete script: two failed attempts, then a failed
attempt with cancellation observed; the tail is never reached. -/
theorem retryUntilSucceed_contract_witness :
    retryUntilSucceed (List.replicate 2 (.fail false) ++ .fail true :: [.ok]) =
      some (retryPattern 2) ∧
    (retryPattern 2).head? = some .attempt ∧
    (retryPattern 2).count .attempt = 2 + 1 ∧
    (retryPattern 2).count .sleep = 2 :=
  retryUntilSucceed_contract 2 (.fail true) [.ok] (Or.inr rfl)

/-! ## C10: DeduplicateTargetObjects never returns an error -/

/-- Claim C10: the error result of `DeduplicateTargetObjects` is `nil` for
every input (state.go:199 returns a literal `nil`), so the `ComparisonError`
branch at state.go:269-271 guarding a deduplication error can never fire. -/
theorem deduplicateTargetObjects_err_none (ns : String) (objs : List Unstructured)
    (isNamespaced : GroupKind → Bool) (order : List ResourceKey) :
    (deduplicateTargetObjects ns objs isNamespaced order).2.2 = none := rfl

/-! ## C6: early return when comparison settings fail to load -/

/-- Claim C6: when `getComparisonSettings` fails, `CompareAppState` returns
early with sync status Unknown compared to the given source and the app's
destination, health status Unknown, and empty resources and managed
resources. -/
theorem compareAppState_settings_error (p : CompareParams) (e : String)
    (h : p.settingsRes = .error e) :
    compareAppState p =
      ({ syncStatus := { comparedToSource := p.source, comparedToDest := p.dest,
                         status := .unknown, revision := "" },
         healthStatus := .unknown, resources := [], managedResources := [],
         appSourceType := "" }, []) := by
  unfold compareAppState
  rw [h]

/-- Witness for C6 at concrete inputs whose settings load fails. -/
theorem compareAppState_settings_error_witness :
    compareAppState paramsSettingsErr =
      ({ syncStatus := { comparedToSource := paramsSettingsErr.source,
                         comparedToDest := paramsSettingsErr.dest,
                         status := .unknown, revision := "" },
         healthStatus := .unknown, resources := [], managedResources := [],
         appSourceType := "" }, []) :=
  compareAppState_settings_error paramsSettingsErr "settings unavailable" rfl

/-! ## Comparison-loop lemmas -/

/-- The per-slot entries do not depend on the incoming aggregate sync code. -/
theorem processSlot_entry_indep (ext : Externals) (pgk : GroupKind → Bool → Bool)
    (lns : GroupKind → Option Bool) (f : Bool)
    (s : Option Unstructured × Option Unstructured) (d : DiffResult)
    (c c' : SyncStatusCode) :
    (processSlot ext pgk lns f s d c).2 = (processSlot ext pgk lns f s d c').2 := by
  rcases h : objOf s with _ | obj
  · simp [processSlot, h]
  · simp only [processSlot, h]
    by_cases h1 : (ext.isHook obj || ext.ignoreObj obj) = true
    · simp [h1]
    · by_cases h2 : (d.modified || s.1.isNone || s.2.isNone) = true
      · simp [h1, h2]
      · simp [h1, h2]

/-- The aggregate sync code update of one slot, via `slotTrigger`. -/
theorem processSlot_code (ext : Externals) (pgk : GroupKind → Bool → Bool)
    (lns : GroupKind → Option Bool) (f : Bool)
    (s : Option Unstructured × Option Unstructured) (d : DiffResult)
    (c : SyncStatusCode) :
    (processSlot ext pgk lns f s d c).1 =
      if slotTrigger ext (s, d) then .outOfSync else c := by
  rcases h : objOf s with _ | obj
  · simp [processSlot, slotTrigger, h]
  · simp only [processSlot, slotTrigger, h]
    by_cases h1 : (ext.isHook obj || ext.ignoreObj obj) = true
    · simp [h1]
    · by_cases h2 : (d.modified || s.1.isNone || s.2.isNone) = true
      · by_cases h3 : ((s.1.isNone && s.2.isSome) && ext.hasIgnoreExtraneous obj) = true
        · simp [h1, h2, h3]
        · simp [h1, h2, h3]
      · simp [h1, h2]

/-- The comparison loop's fold, characterized componentwise. -/
theorem processSlots_aux (ext : Externals) (pgk : GroupKind → Bool → Bool)
    (lns : GroupKind → Option Bool) (f : Bool) :
    ∀ (sds : List ((Option Unstructured × Option Unstructured) × DiffResult))
      (a : SyncStatusCode × List ResourceStatus × List ManagedResource),
      sds.foldl (fun acc sd =>
        let r := processSlot ext pgk lns f sd.1 sd.2 acc.1
        (r.1, acc.2.1 ++ [r.2.1], acc.2.2 ++ [r.2.2])) a =
      (sds.foldl (fun c sd => if slotTrigger ext sd then .outOfSync else c) a.1,
       a.2.1 ++ sds.map (fun sd => (processSlot ext pgk lns f sd.1 sd.2 .synced).2.1),
       a.2.2 ++ sds.map (fun sd => (processSlot ext pgk lns f sd.1 sd.2 .synced).2.2)) := by
  intro sds
  induction sds with
  | nil => intro a; simp
  | cons sd rest ih =>
    intro a
    simp only [List.foldl_cons, List.map_cons]
    rw [ih]
    rw [processSlot_code ext pgk lns f sd.1 sd.2 a.1]
    rw [show (processSlot ext pgk lns f sd.1 sd.2 a.1).2 =
          (processSlot ext pgk lns f sd.1 sd.2 .synced).2 from
        processSlot_entry_indep ext pgk lns f sd.1 sd.2 a.1 .synced]
    simp

/-- The aggregate sync code of the loop as a fold of `slotTrigger`. -/
theorem processSlots_code (ext : Externals) (pgk : GroupKind → Bool → Bool)
    (lns : GroupKind → Option Bool) (f : Bool)
    (sds : List ((Option Unstructured × Option Unstructured) × DiffResult)) :
    (processSlots ext pgk lns f sds).1 =
      sds.foldl (fun c sd => if slotTrigger ext sd then .outOfSync else c) .synced := by
  rw [processSlots, processSlots_aux]

/-- The per-slot summaries of the loop as a map over the slots. -/
theorem processSlots_resources (ext : Externals) (pgk : GroupKind → Bool → Bool)
    (lns : GroupKind → Option Bool) (f : Bool)
    (sds : List ((Option Unstructured × Option Unstructured) × DiffResult)) :
    (processSlots ext pgk lns f sds).2.1 =
      sds.map (fun sd => (processSlot ext pgk lns f sd.1 sd.2 .synced).2.1) := by
  rw [processSlots, processSlots_aux]
  simp

/-- The managed-resource entries of the loop as a map over the slots. -/
theorem processSlots_managed (ext : Externals) (pgk : GroupKind → Bool → Bool)
    (lns : GroupKind → Option Bool) (f : Bool)
    (sds : List ((Option Unstructured × Option Unstructured) × DiffResult)) :
    (processSlots ext pgk lns f sds).2.2 =
      sds.map (fun sd => (processSlot ext pgk lns f sd.1 sd.2 .synced).2.2) := by
  rw [processSlots, processSlots_aux]
  simp

/-- Once the aggregate is OutOfSync, the fold keeps it OutOfSync. -/
theorem foldl_trigger_outOfSync (ext : Externals) :
    ∀ (sds : List ((Option Unstructured × Option Unstructured) × DiffResult)),
      sds.foldl (fun c sd => if slotTrigger ext sd then .outOfSync else c)
        SyncStatusCode.outOfSync = .outOfSync := by
  intro sds
  induction sds with
  | nil => rfl
  | cons sd rest ih =>
    simp only [List.foldl_cons]
    cases h : slotTrigger ext sd <;> simp [h, ih]

/-- The aggregate sync code is OutOfSync exactly when some slot triggers. -/
theorem foldl_trigger_any (ext : Externals) :
    ∀ (sds : List ((Option Unstructured × Option Unstructured) × DiffResult))
      (c : SyncStatusCode),
      sds.foldl (fun c sd => if slotTrigger ext sd then .outOfSync else c) c =
        if sds.any (slotTrigger ext) then .outOfSync else c := by
  intro sds
  induction sds with
  | nil => intro c; simp
  | cons sd rest ih =>
    intro c
    simp only [List.foldl_cons, List.any_cons]
    by_cases h : slotTrigger ext sd = true
    · simp [h, foldl_trigger_outOfSync]
    · simp only [Bool.not_eq_true] at h
      have hinit : (if slotTrigger ext sd = true then SyncStatusCode.outOfSync else c) = c := by
        simp [h]
      have hor : (slotTrigger ext sd || rest.any (slotTrigger ext)) =
          rest.any (slotTrigger ext) := by
        simp [h]
      rw [hinit, ih]
      simp only [hor]

/-- Every slot the reconciler produces carries at least one object. -/
theorem reconcile_obj_present (ns : String) (isN : GroupKind → Bool) :
    ∀ (targets : List Unstructured) (live : List (ResourceKey × Unstructured))
      (s : Option Unstructured × Option Unstructured),
      s ∈ reconcile ns isN targets live → ∃ obj, objOf s = some obj := by
  intro targets
  induction targets with
  | nil =>
    intro live s hs
    simp only [reconcile, List.mem_map] at hs
    rcases hs with ⟨kv, _, rfl⟩
    exact ⟨kv.2, rfl⟩
  | cons t rest ih =>
    intro live s hs
    simp only [reconcile, List.mem_cons] at hs
    rcases hs with rfl | hs
    · rcases ha : alookup (getResourceKey (imputeNamespace ns isN t)) live with _ | l
      · exact ⟨t, by simp [objOf, ha]⟩
      · exact ⟨l, by simp [objOf, ha]⟩
    · exact ih _ _ hs

/-- Under `failedToLoadObjs`, every slot with an object gets status Unknown. -/
theorem processSlot_failed_status (ext : Externals) (pgk : GroupKind → Bool → Bool)
    (lns : GroupKind → Option Bool) (s : Option Unstructured × Option Unstructured)
    (d : DiffResult) (c : SyncStatusCode) (obj : Unstructured)
    (hobj : objOf s = some obj) :
    (processSlot ext pgk lns true s d c).2.1.status = .unknown := by
  simp [processSlot, hobj]

/-! ## C7: prune candidates and the IgnoreExtraneous annotation -/

/-- Claim C7: a non-hook, non-ignored slot with `target == nil` and
`live != nil` sets the aggregate sync code to OutOfSync unless the live
object carries the IgnoreExtraneous compare-option, in which case the
aggregate passes through unchanged; and (when the pass did not fail to load
objects and the project permits the group/kind) its per-resource status is
OutOfSync in both cases. -/
theorem processSlot_prune_candidate (ext : Externals)
    (pgk : GroupKind → Bool → Bool) (lns : GroupKind → Option Bool)
    (failed : Bool) (live : Unstructured) (d : DiffResult) (c : SyncStatusCode)
    (hhook : ext.isHook live = false) (hign : ext.ignoreObj live = false) :
    ((processSlot ext pgk lns failed (none, some live) d c).1 =
      if ext.hasIgnoreExtraneous live then c else .outOfSync) ∧
    (failed = false →
      pgk ⟨live.gvk.group, live.gvk.kind⟩
        ((lns ⟨live.gvk.group, live.gvk.kind⟩).getD false) = true →
      (processSlot ext pgk lns failed (none, some live) d c).2.1.status =
        .outOfSync) := by
  constructor
  · rw [processSlot_code]
    simp only [slotTrigger, objOf, hhook, hign]
    cases hie : ext.hasIgnoreExtraneous live <;> simp [hie]
  · intro hf hp
    subst hf
    simp [processSlot, objOf, hhook, hign, hp]

/-- Witness for C7 at concrete inputs: a prune candidate (no target, live
ConfigMap) with no IgnoreExtraneous annotation downgrades the aggregate and
is itself OutOfSync. -/
theorem processSlot_prune_candidate_witness :
    ((processSlot extNone (fun _ _ => true) (fun _ => some true) false
        (none, some objA) ⟨false⟩ .synced).1 =
      if extNone.hasIgnoreExtraneous objA then .synced else .outOfSync) ∧
    (false = false →
      (fun (_ : GroupKind) (_ : Bool) => true) ⟨objA.gvk.group, objA.gvk.kind⟩
        (((fun (_ : GroupKind) => some true)
          (⟨objA.gvk.group, objA.gvk.kind⟩ : GroupKind)).getD false) = true →
      (processSlot extNone (fun _ _ => true) (fun _ => some true) false
        (none, some objA) ⟨false⟩ .synced).2.1.status = .outOfSync) :=
  processSlot_prune_candidate extNone (fun _ _ => true) (fun _ => some true) false
    objA ⟨false⟩ .synced rfl rfl

/-! ## C8: hook resources never change the aggregate sync code -/

/-- Claim C8: inserting a slot whose object is classified as a hook (or
carries the Ignore sync annotation) anywhere in the slot list leaves the
aggregate sync code computed by the comparison loop unchanged: such a slot
never sets the aggregate to OutOfSync. -/
theorem processSlots_hook_neutral (ext : Externals) (pgk : GroupKind → Bool → Bool)
    (lns : GroupKind → Option Bool) (failed : Bool)
    (pre post : List ((Option Unstructured × Option Unstructured) × DiffResult))
    (s : (Option Unstructured × Option Unstructured) × DiffResult)
    (hs : ∀ obj, objOf s.1 = some obj →
      (ext.isHook obj || ext.ignoreObj obj) = true) :
    (processSlots ext pgk lns failed (pre ++ s :: post)).1 =
      (processSlots ext pgk lns failed (pre ++ post)).1 := by
  have htr : slotTrigger ext s = false := by
    rcases h : objOf s.1 with _ | obj
    · simp [slotTrigger, h]
    · simp [slotTrigger, h, hs obj h]
  rw [processSlots_code, processSlots_code, List.foldl_append, List.foldl_append,
    List.foldl_cons, htr]
  simp

/-- Witness for C8 at concrete inputs: inserting a hook-classified Secret slot
after an OutOfSync ConfigMap slot does not change the aggregate sync code. -/
theorem processSlots_hook_neutral_witness :
    (processSlots extHookNamedB (fun _ _ => true) (fun _ => some true) false
        ([((some objA, none), ⟨true⟩)] ++ ((some objB, none), ⟨false⟩) :: [])).1 =
      (processSlots extHookNamedB (fun _ _ => true) (fun _ => some true) false
        ([((some objA, none), ⟨true⟩)] ++ [])).1 :=
  processSlots_hook_neutral extHookNamedB (fun _ _ => true) (fun _ => some true) false
    [((some objA, none), ⟨true⟩)] [] ((some objB, none), ⟨false⟩)
    (fun obj h => by
      have hb : objB = obj := Option.some.inj h
      subst hb
      rfl)

/-! ## C3: failedToLoadObjs forces Unknown everywhere -/

/-- Claim C3: in every pass whose `failedToLoadObjs` flag is set (target load,
live fetch or diff computation failed), the aggregate sync status is Unknown
and every entry of `resources` has status Unknown (hook and ignore-annotated
entries included, since the override at state.go:380-382 applies to every
slot). -/
theorem compareAppState_failed_all_unknown (p : CompareParams) (lk : String)
    (hset : p.settingsRes = .ok lk) (hfail : failedOf p = true) :
    (compareAppState p).1.syncStatus.status = .unknown ∧
    ∀ r ∈ (compareAppState p).1.resources, r.status = .unknown := by
  constructor
  · simp [compareAppState, hset, syncCodeOf, hfail]
  · intro r hr
    simp only [compareAppState, hset] at hr
    rw [loopOf, hfail, processSlots_resources] at hr
    rcases List.mem_map.mp hr with ⟨sd, hsd, rfl⟩
    rw [slotDiffsOf] at hsd
    rcases List.mem_map.mp hsd with ⟨s, hsl, rfl⟩
    rcases reconcile_obj_present p.dest.ns (infoProviderOf p) (filterStage p).1
      (liveFiltered p) s hsl with ⟨obj, hobj⟩
    exact processSlot_failed_status p.ext p.projGKPermitted p.liveIsNamespaced
      s _ .synced obj hobj

/-- Witness for C3 at concrete inputs: the pass whose live-state fetch fails
has Unknown aggregate sync status, and all of its per-resource statuses are
Unknown. -/
theorem compareAppState_failed_all_unknown_witness :
    (compareAppState paramsLiveErr).1.syncStatus.status = .unknown ∧
    ∀ r ∈ (compareAppState paramsLiveErr).1.resources, r.status = .unknown :=
  compareAppState_failed_all_unknown paramsLiveErr "app.kubernetes.io/instance" rfl rfl

/-! ## C5: slot-order stability across repeated passes -/

/-- Claim C5 counterexample: two passes on identical inputs that differ only
in the (unspecified) Go map iteration order inside `DeduplicateTargetObjects`
— both orders being permutations of the map's keys — produce `resources`
arrays in different index orders, so the index order of the resource slots is
not stable under repeat invocation. -/
theorem compareAppState_order_cex :
    List.Perm [getResourceKey objA, getResourceKey objB]
      ((targetByKey "n" (fun _ => true) [objA, objB]).map Prod.fst) ∧
    List.Perm [getResourceKey objB, getResourceKey objA]
      ((targetByKey "n" (fun _ => true) [objA, objB]).map Prod.fst) ∧
    baseParams.dedupOrder = [getResourceKey objA, getResourceKey objB] ∧
    (compareAppState baseParams).1.resources ≠
      (compareAppState { baseParams with
        dedupOrder := [getResourceKey objB, getResourceKey objA] }).1.resources := by
  have hkeys : (targetByKey "n" (fun _ => true) [objA, objB]).map Prod.fst =
      [getResourceKey objA, getResourceKey objB] := by decide
  refine ⟨hkeys ▸ List.Perm.refl _, hkeys ▸ List.Perm.swap _ _ _, rfl, ?_⟩
  decide

/-- Namespace imputation is idempotent. -/
theorem imputeNamespace_idem (ns : String) (isN : GroupKind → Bool) (o : Unstructured) :
    imputeNamespace ns isN (imputeNamespace ns isN o) = imputeNamespace ns isN o := by
  unfold imputeNamespace
  by_cases h : isN ⟨o.gvk.group, o.gvk.kind⟩
  · by_cases h2 : o.ns = ""
    · by_cases h3 : ns = "" <;> simp [h, h2, h3]
    · simp [h, h2]
  · simp [h]

/-- Every object kept by `DeduplicateTargetObjects` is already imputed. -/
theorem dedup_mem_imputed (ns : String) (objs : List Unstructured)
    (isN : GroupKind → Bool) (order : List ResourceKey) (o : Unstructured)
    (ho : o ∈ (deduplicateTargetObjects ns objs isN order).1) :
    imputeNamespace ns isN o = o := by
  rw [dedup_res_eq] at ho
  rcases List.mem_filterMap.mp ho with ⟨k, _, hpk⟩
  rcases ha : alookup k (targetByKey ns isN objs) with _ | ts
  · simp [pickOf, ha] at hpk
  · have hpk' : ts.getLastD default = o := by simpa [pickOf, ha] using hpk
    obtain ⟨hts, hne⟩ := targetByKey_bucket ns isN objs k ts ha
    have hmem : o ∈ ts := hpk' ▸ getLastD_mem ts default hne
    rw [hts] at hmem
    have hmem2 : o ∈ objs.map (imputeNamespace ns isN) := (List.mem_filter.mp hmem).1
    rcases List.mem_map.mp hmem2 with ⟨x, _, rfl⟩
    exact imputeNamespace_idem ns isN x

/-- The keys of the kept objects are the iteration-order keys hitting the
map. -/
theorem filterMap_pick_keys_filter (ns : String) (isN : GroupKind → Bool)
    (objs : List Unstructured) :
    ∀ (order : List ResourceKey),
      (order.filterMap (pickOf (targetByKey ns isN objs))).map getResourceKey =
        order.filter (fun k => (alookup k (targetByKey ns isN objs)).isSome) := by
  intro order
  induction order with
  | nil => simp
  | cons k rest ih =>
    rcases ha : alookup k (targetByKey ns isN objs) with _ | ts
    · simp [List.filterMap_cons, List.filter_cons, pickOf, ha, ih]
    · have hpick : pickOf (targetByKey ns isN objs) k = some (ts.getLastD default) := by
        simp [pickOf, ha]
      have hkk := pick_key ns isN objs k ts ha
      rw [List.getLastD_eq_getLast?] at hkk
      simp only [List.filterMap_cons, hpick, List.filter_cons, ha]
      simp [hkk, ih]

/-- Removing the entries of one key does not change lookups of other keys. -/
theorem alookup_filter_ne {β : Type} (k k' : ResourceKey) (h : ¬ k' = k) :
    ∀ (l : List (ResourceKey × β)),
      alookup k' (l.filter (fun kv => ¬ kv.1 = k)) = alookup k' l := by
  intro l
  induction l with
  | nil => rfl
  | cons kv rest ih =>
    obtain ⟨k₀, v⟩ := kv
    simp only [decide_not] at ih
    by_cases h0 : k₀ = k
    · subst h0
      have h1 : ¬ k₀ = k' := fun hh => h hh.symm
      simp [alookup, h1, ih]
    · by_cases h1 : k₀ = k'
      · subst h1
        simp [alookup, h0, ih]
      · simp [alookup, h0, h1, ih]

/-- The reconciler in closed form, for targets with pairwise distinct keys:
each target is paired with the live object of its key, and the unmatched live
entries become prune slots in live order. -/
theorem reconcile_eq (ns : String) (isN : GroupKind → Bool) :
    ∀ (targets : List Unstructured) (live : List (ResourceKey × Unstructured)),
      (targets.map (fun t => getResourceKey (imputeNamespace ns isN t))).Nodup →
      reconcile ns isN targets live =
        targets.map (fun t =>
          (some t, alookup (getResourceKey (imputeNamespace ns isN t)) live)) ++
        (live.filter (fun kv =>
          ¬ kv.1 ∈ targets.map (fun t => getResourceKey (imputeNamespace ns isN t)))).map
          (fun kv => ((none : Option Unstructured), some kv.2)) := by
  intro targets
  induction targets with
  | nil => intro live _; simp [reconcile]
  | cons t rest ih =>
    intro live hnd
    rw [List.map_cons, List.nodup_cons] at hnd
    obtain ⟨hknotin, hndr⟩ := hnd
    simp only [reconcile]
    rw [ih _ hndr]
    rw [List.map_cons, List.cons_append]
    congr 1
    have hmapeq : rest.map (fun r =>
          ((some r : Option Unstructured),
           alookup (getResourceKey (imputeNamespace ns isN r))
             (live.filter (fun kv =>
               ¬ kv.1 = getResourceKey (imputeNamespace ns isN t))))) =
        rest.map (fun r =>
          ((some r : Option Unstructured),
           alookup (getResourceKey (imputeNamespace ns isN r)) live)) := by
      apply List.map_congr_left
      intro r hr
      have hne : ¬ getResourceKey (imputeNamespace ns isN r) =
          getResourceKey (imputeNamespace ns isN t) := by
        intro hh
        exact hknotin (hh ▸ List.mem_map_of_mem _ hr)
      rw [alookup_filter_ne _ _ hne]
    rw [hmapeq]
    congr 1
    rw [List.filter_filter]
    congr 1
    apply List.filter_congr
    intro kv _
    by_cases h1 : kv.1 = getResourceKey (imputeNamespace ns isN t) <;>
      by_cases h2 : kv.1 ∈ rest.map (fun r => getResourceKey (imputeNamespace ns isN r)) <;>
        simp [h1, h2]

/-- `List.any` is invariant under permutation. -/
theorem perm_any_eq {α : Type} (f : α → Bool) {l1 l2 : List α}
    (h : List.Perm l1 l2) : l1.any f = l2.any f := by
  rw [List.any_eq, List.any_eq]
  exact decide_eq_decide.mpr
    ⟨fun ⟨x, hx, hfx⟩ => ⟨x, h.mem_iff.mp hx, hfx⟩,
     fun ⟨x, hx, hfx⟩ => ⟨x, h.mem_iff.mpr hx, hfx⟩⟩

/-- The resources-filter step keeps a sublist of the deduplicated targets. -/
theorem filterStage_sublist (p : CompareParams) :
    (filterStage p).1.Sublist (dedupOf p).1 := by
  rcases hf : p.resFilterRes with e | excl
  · simp only [filterStage, hf]
    exact List.Sublist.refl _
  · simp only [filterStage, hf, applyResFilter]
    exact List.filter_sublist _

/-- Members of the filtered targets come from the deduplicated targets. -/
theorem filterStage_mem (p : CompareParams) {o : Unstructured}
    (ho : o ∈ (filterStage p).1) : o ∈ (dedupOf p).1 :=
  (filterStage_sublist p).subset ho

/-- The (re-imputed) keys of the filtered targets are pairwise distinct
whenever the dedup iteration order is. -/
theorem filterStage_keys_nodup (p : CompareParams) (hnd : p.dedupOrder.Nodup) :
    ((filterStage p).1.map (fun t =>
      getResourceKey (imputeNamespace p.dest.ns (infoProviderOf p) t))).Nodup := by
  have hmap : (filterStage p).1.map (fun t =>
      getResourceKey (imputeNamespace p.dest.ns (infoProviderOf p) t)) =
      (filterStage p).1.map getResourceKey := by
    apply List.map_congr_left
    intro o ho
    rw [dedup_mem_imputed p.dest.ns (passLoad p).1 (infoProviderOf p) p.dedupOrder o
      (filterStage_mem p ho)]
  rw [hmap]
  have hd : ((dedupOf p).1.map getResourceKey).Nodup := by
    rw [dedupOf, dedup_res_eq, filterMap_pick_keys_filter]
    exact List.Nodup.filter _ hnd
  exact List.Nodup.sublist (List.Sublist.map _ (filterStage_sublist p)) hd

/-- `CompareAppState` on a settings-load failure, as an equation. -/
theorem compareAppState_error_eq (p : CompareParams) (e : String)
    (h : p.settingsRes = .error e) :
    compareAppState p =
      ({ syncStatus := { comparedToSource := p.source, comparedToDest := p.dest,
                         status := .unknown, revision := "" },
         healthStatus := .unknown, resources := [], managedResources := [],
         appSourceType := "" }, []) := by
  unfold compareAppState
  rw [h]

/-- `CompareAppState` on a successful settings load, as an equation over the
stage definitions. -/
theorem compareAppState_ok_eq (p : CompareParams) (lk : String)
    (h : p.settingsRes = .ok lk) :
    compareAppState p =
      ({ syncStatus := { comparedToSource := p.source, comparedToDest := p.dest,
                         status := syncCodeOf p, revision := revisionOf p },
         healthStatus := healthOf p, resources := (loopOf p).2.1,
         managedResources := (loopOf p).2.2, appSourceType := sourceTypeOf p },
       condsOf p lk) := by
  unfold compareAppState
  rw [h]

/-- Claim C5 (amended): two passes on identical inputs that differ only in
the Go map iteration order inside `DeduplicateTargetObjects` (any two
duplicate-free orders that are permutations of each other) agree on the
aggregate sync status, health, and source type, and produce the same
`resources`, `managedResources` and conditions up to permutation of the index
order — but (per the counterexample) not necessarily in the same index
order. -/
theorem compareAppState_perm_stable (p : CompareParams)
    (order1 order2 : List ResourceKey)
    (hperm : List.Perm order1 order2) (hnd : order1.Nodup) :
    ((compareAppState { p with dedupOrder := order1 }).1.syncStatus =
      (compareAppState { p with dedupOrder := order2 }).1.syncStatus) ∧
    ((compareAppState { p with dedupOrder := order1 }).1.healthStatus =
      (compareAppState { p with dedupOrder := order2 }).1.healthStatus) ∧
    ((compareAppState { p with dedupOrder := order1 }).1.appSourceType =
      (compareAppState { p with dedupOrder := order2 }).1.appSourceType) ∧
    List.Perm (compareAppState { p with dedupOrder := order1 }).1.resources
      (compareAppState { p with dedupOrder := order2 }).1.resources ∧
    List.Perm (compareAppState { p with dedupOrder := order1 }).1.managedResources
      (compareAppState { p with dedupOrder := order2 }).1.managedResources ∧
    List.Perm (compareAppState { p with dedupOrder := order1 }).2
      (compareAppState { p with dedupOrder := order2 }).2 := by
  rcases hs : p.settingsRes with e | lk
  · have hs1 : ({ p with dedupOrder := order1 } : CompareParams).settingsRes =
        Except.error e := hs
    have hs2 : ({ p with dedupOrder := order2 } : CompareParams).settingsRes =
        Except.error e := hs
    exact ⟨rfl, rfl, rfl, List.Perm.refl _, List.Perm.refl _, List.Perm.refl _⟩
  · rw [← hs]
    have hs1 : ({ p with dedupOrder := order1 } : CompareParams).settingsRes =
        Except.ok lk := hs
    have hs2 : ({ p with dedupOrder := order2 } : CompareParams).settingsRes =
        Except.ok lk := hs
    have hnd2 : order2.Nodup := hperm.nodup_iff.mp hnd
    have hDres : List.Perm (dedupOf { p with dedupOrder := order1 }).1
        (dedupOf { p with dedupOrder := order2 }).1 := by
      rw [dedupOf, dedupOf, dedup_res_eq, dedup_res_eq]
      exact List.Perm.filterMap _ hperm
    have hDconds : List.Perm (dedupOf { p with dedupOrder := order1 }).2.1
        (dedupOf { p with dedupOrder := order2 }).2.1 := by
      rw [dedupOf, dedupOf, dedup_conds_eq, dedup_conds_eq]
      exact List.Perm.filterMap _ hperm
    have hT : List.Perm (filterStage { p with dedupOrder := order1 }).1
        (filterStage { p with dedupOrder := order2 }).1 := by
      rcases hf : p.resFilterRes with e2 | excl
      · have hf1 : ({ p with dedupOrder := order1 } : CompareParams).resFilterRes =
            Except.error e2 := hf
        have hf2 : ({ p with dedupOrder := order2 } : CompareParams).resFilterRes =
            Except.error e2 := hf
        simp only [filterStage, hf1, hf2]
        exact hDres
      · have hf1 : ({ p with dedupOrder := order1 } : CompareParams).resFilterRes =
            Except.ok excl := hf
        have hf2 : ({ p with dedupOrder := order2 } : CompareParams).resFilterRes =
            Except.ok excl := hf
        simp only [filterStage, hf1, hf2, applyResFilter]
        exact List.Perm.filter _ hDres
    have hTconds : List.Perm (filterStage { p with dedupOrder := order1 }).2
        (filterStage { p with dedupOrder := order2 }).2 := by
      rcases hf : p.resFilterRes with e2 | excl
      · have hf1 : ({ p with dedupOrder := order1 } : CompareParams).resFilterRes =
            Except.error e2 := hf
        have hf2 : ({ p with dedupOrder := order2 } : CompareParams).resFilterRes =
            Except.error e2 := hf
        simp only [filterStage, hf1, hf2]
        exact List.Perm.refl _
      · have hf1 : ({ p with dedupOrder := order1 } : CompareParams).resFilterRes =
            Except.ok excl := hf
        have hf2 : ({ p with dedupOrder := order2 } : CompareParams).resFilterRes =
            Except.ok excl := hf
        simp only [filterStage, hf1, hf2, applyResFilter]
        exact List.Perm.map _
          (((List.reverse_perm _).trans (List.Perm.filter _ hDres)).trans
            (List.reverse_perm _).symm)
    have hk1 := filterStage_keys_nodup { p with dedupOrder := order1 } hnd
    have hk2 := filterStage_keys_nodup { p with dedupOrder := order2 } hnd2
    have hslots : List.Perm (slotsOf { p with dedupOrder := order1 })
        (slotsOf { p with dedupOrder := order2 }) := by
      rw [slotsOf, slotsOf, reconcile_eq _ _ _ _ hk1, reconcile_eq _ _ _ _ hk2]
      refine List.Perm.append (List.Perm.map _ hT) (List.Perm.of_eq ?_)
      have eL : liveFiltered ({ p with dedupOrder := order2 } : CompareParams) =
          liveFiltered { p with dedupOrder := order1 } := rfl
      rw [eL]
      congr 1
      apply List.filter_congr
      intro kv _
      have hmm := (List.Perm.map (fun t =>
        getResourceKey (imputeNamespace
          ({ p with dedupOrder := order1 } : CompareParams).dest.ns
          (infoProviderOf { p with dedupOrder := order1 }) t)) hT).mem_iff (a := kv.1)
      by_cases h1 : kv.1 ∈ (filterStage { p with dedupOrder := order1 }).1.map
          (fun t => getResourceKey (imputeNamespace
            ({ p with dedupOrder := order1 } : CompareParams).dest.ns
            (infoProviderOf { p with dedupOrder := order1 }) t))
      · have h2 : kv.1 ∈ (filterStage { p with dedupOrder := order2 }).1.map
            (fun t => getResourceKey (imputeNamespace
              ({ p with dedupOrder := order2 } : CompareParams).dest.ns
              (infoProviderOf { p with dedupOrder := order2 }) t)) := hmm.mp h1
        simp [h1, h2]
      · have h2 : ¬ kv.1 ∈ (filterStage { p with dedupOrder := order2 }).1.map
            (fun t => getResourceKey (imputeNamespace
              ({ p with dedupOrder := order2 } : CompareParams).dest.ns
              (infoProviderOf { p with dedupOrder := order2 }) t)) :=
          fun hh => h1 (hmm.mpr hh)
        simp [h1, h2]
    have hsd : List.Perm (slotDiffsOf { p with dedupOrder := order1 })
        (slotDiffsOf { p with dedupOrder := order2 }) := by
      rw [slotDiffsOf, slotDiffsOf]
      exact List.Perm.map _ hslots
    have hres : List.Perm (loopOf { p with dedupOrder := order1 }).2.1
        (loopOf { p with dedupOrder := order2 }).2.1 := by
      rw [loopOf, loopOf, processSlots_resources, processSlots_resources]
      exact List.Perm.map _ hsd
    have hman : List.Perm (loopOf { p with dedupOrder := order1 }).2.2
        (loopOf { p with dedupOrder := order2 }).2.2 := by
      rw [loopOf, loopOf, processSlots_managed, processSlots_managed]
      exact List.Perm.map _ hsd
    have hsync : syncCodeOf { p with dedupOrder := order1 } =
        syncCodeOf { p with dedupOrder := order2 } := by
      rw [syncCodeOf, syncCodeOf, loopOf, loopOf, processSlots_code, processSlots_code,
        foldl_trigger_any, foldl_trigger_any]
      have hany : (slotDiffsOf { p with dedupOrder := order1 }).any
          (slotTrigger ({ p with dedupOrder := order1 } : CompareParams).ext) =
          (slotDiffsOf { p with dedupOrder := order2 }).any
            (slotTrigger ({ p with dedupOrder := order2 } : CompareParams).ext) :=
        perm_any_eq _ hsd
      rw [hany]
      have hfl : failedOf ({ p with dedupOrder := order1 } : CompareParams) =
          failedOf { p with dedupOrder := order2 } := rfl
      rw [hfl]
    have hcondp : List.Perm (condsOf { p with dedupOrder := order1 } lk)
        (condsOf { p with dedupOrder := order2 } lk) := by
      rw [condsOf, condsOf]
      refine List.Perm.append (List.Perm.append (List.Perm.append (List.Perm.append
        (List.Perm.append (List.Perm.append (List.Perm.append
          (List.Perm.of_eq ?_) (List.Perm.of_eq ?_)) hDconds) hTconds)
        (List.Perm.of_eq ?_)) (List.Perm.of_eq ?_)) (List.Perm.of_eq ?_))
        (List.Perm.of_eq ?_)
      all_goals rfl
    rw [compareAppState_ok_eq { p with dedupOrder := order1 } lk hs1,
      compareAppState_ok_eq { p with dedupOrder := order2 } lk hs2]
    refine ⟨?_, rfl, rfl, hres, hman, hcondp⟩
    rw [hsync]
    rfl

/-- Witness for C5 (amended) at concrete inputs: the two valid iteration
orders of the two-key map. -/
theorem compareAppState_perm_stable_witness :
    ((compareAppState { baseParams with
        dedupOrder := [getResourceKey objA, getResourceKey objB] }).1.syncStatus =
      (compareAppState { baseParams with
        dedupOrder := [getResourceKey objB, getResourceKey objA] }).1.syncStatus) ∧
    ((compareAppState { baseParams with
        dedupOrder := [getResourceKey objA, getResourceKey objB] }).1.healthStatus =
      (compareAppState { baseParams with
        dedupOrder := [getResourceKey objB, getResourceKey objA] }).1.healthStatus) ∧
    ((compareAppState { baseParams with
        dedupOrder := [getResourceKey objA, getResourceKey objB] }).1.appSourceType =
      (compareAppState { baseParams with
        dedupOrder := [getResourceKey objB, getResourceKey objA] }).1.appSourceType) ∧
    List.Perm (compareAppState { baseParams with
        dedupOrder := [getResourceKey objA, getResourceKey objB] }).1.resources
      (compareAppState { baseParams with
        dedupOrder := [getResourceKey objB, getResourceKey objA] }).1.resources ∧
    List.Perm (compareAppState { baseParams with
        dedupOrder := [getResourceKey objA, getResourceKey objB] }).1.managedResources
      (compareAppState { baseParams with
        dedupOrder := [getResourceKey objB, getResourceKey objA] }).1.managedResources ∧
    List.Perm (compareAppState { baseParams with
        dedupOrder := [getResourceKey objA, getResourceKey objB] }).2
      (compareAppState { baseParams with
        dedupOrder := [getResourceKey objB, getResourceKey objA] }).2 :=
  compareAppState_perm_stable baseParams
    [getResourceKey objA, getResourceKey objB]
    [getResourceKey objB, getResourceKey objA]
    (List.Perm.swap _ _ _) (by decide)

end ArgoCD
